import Mathlib

/-
Verification development for the DoNotMiss repository: a browser extension
plus a Forge (Jira) integration that captures text snippets as tasks, stores
them, and converts approved tasks into tracker issues.

The definitions below are a shallow embedding of the JavaScript source:

  * donotmiss-forge/src/index.js   (two resolver variants: a backend-proxy
    variant and a Forge-storage variant; the storage variant holds the task
    list under the storage key "tasks")
  * donotmiss-extension/background.js  (detectSource, the dashboard App
    component's per-status action sets)
  * the popup script (handleTaskAction's auto-generated title, wakeUpBackend)

Network effects (fetch results, Jira API responses) are modelled as explicit
outcome parameters; Forge storage is modelled as the task list passed in and
returned, together with a flag recording whether storage.set was reached.
-/

namespace DoNotMiss

/-- Task status values used by the code: "pending", "sent", "declined". -/
inductive Status
  | pending
  | sent
  | declined
deriving DecidableEq

/-- Task record as stored in Forge storage (addTask / syncFromBackend shape,
plus the fields the lifecycle operations write: jiraKey, jiraId, jiraStatus,
jiraStatusCategory, sentAt, declinedAt). -/
structure Task where
  id : String
  title : String
  description : String
  source : String
  url : String
  priority : String
  deadline : Option String
  status : Status
  createdAt : String
  createdVia : String
  jiraKey : Option String
  jiraId : Option String
  jiraStatus : Option String
  jiraStatusCategory : Option String
  sentAt : Option String
  declinedAt : Option String
deriving DecidableEq

/-- Result shape `{success, error?}` returned by the resolver functions. -/
structure OpResult where
  success : Bool
  error : Option String
deriving DecidableEq

/-- Outcome of a storage-variant resolver call: the task list that ends up in
Forge storage, whether `storage.set('tasks', ...)` was executed, and the
returned result object. -/
structure StepOut where
  tasks : List Task
  wrote : Bool
  res : OpResult
deriving DecidableEq

/-- Embedding of the `findIndex` + in-place mutation pattern used by
declineTask / restoreTask / sendToJira: update the first element matching
`p` by `f`; `none` when `findIndex` returns -1. -/
def updateFirst (p : Task → Bool) (f : Task → Task) : List Task → Option (List Task)
  | [] => none
  | t :: ts =>
    if p t then some (f t :: ts)
    else (updateFirst p f ts).map (fun rest => t :: rest)

/-- declineTask (storage variant, index.js lines 358-371): find the task by
id; if absent return `{success:false, error:'Task not found'}` without
writing storage; else set status to "declined", record declinedAt, write. -/
def declineTask (tasks : List Task) (taskId now : String) : StepOut :=
  match updateFirst (fun t => t.id == taskId)
      (fun t => { t with status := Status.declined, declinedAt := some now }) tasks with
  | none => ⟨tasks, false, ⟨false, some "Task not found"⟩⟩
  | some ts => ⟨ts, true, ⟨true, none⟩⟩

/-- restoreTask (storage variant, index.js lines 374-387): find the task by
id; if absent return `{success:false, error:'Task not found'}` without
writing storage; else set status to "pending" and delete declinedAt. -/
def restoreTask (tasks : List Task) (taskId : String) : StepOut :=
  match updateFirst (fun t => t.id == taskId)
      (fun t => { t with status := Status.pending, declinedAt := none }) tasks with
  | none => ⟨tasks, false, ⟨false, some "Task not found"⟩⟩
  | some ts => ⟨ts, true, ⟨true, none⟩⟩

/-- deleteTask (storage variant, index.js lines 350-355): filter out every
task with the given id and write the result; always `{success:true}`. -/
def deleteTaskStorage (tasks : List Task) (taskId : String) : StepOut :=
  ⟨tasks.filter (fun t => t.id != taskId), true, ⟨true, none⟩⟩

/-- Outcome of the Jira issue-creation POST inside sendToJira:
`created key jid` models a 2xx response whose body carries `key` and `id`;
`createFailed` models a non-2xx response (the `!response.ok` branch);
`exnThrown` models any exception thrown inside the try block (network
failure, body parse failure, or the comment POST throwing). -/
inductive JiraOutcome
  | created (key jid : String)
  | createFailed (err : String)
  | exnThrown (msg : String)
deriving DecidableEq

/-- A JiraOutcome counts as a failure when no issue was created. -/
def JiraOutcome.isFailure : JiraOutcome → Bool
  | .created _ _ => false
  | .createFailed _ => true
  | .exnThrown _ => true

/-- Fields written onto the task when issue creation succeeds (index.js
lines 509-514). -/
def markSent (key jid now : String) (t : Task) : Task :=
  { t with status := Status.sent, jiraKey := some key, jiraId := some jid,
           jiraStatus := some "To Do", jiraStatusCategory := some "new",
           sentAt := some now }

/-- sendToJira (storage variant, index.js lines 413-523): find the task by
id (no status check); on a failed or thrown issue creation return
`{success:false}` before any mutation or storage write; on success mark the
found task sent and write storage. -/
def sendToJira (tasks : List Task) (taskId now : String) (outcome : JiraOutcome) : StepOut :=
  if tasks.all (fun t => t.id != taskId) then
    ⟨tasks, false, ⟨false, some "Task not found"⟩⟩
  else
    match outcome with
    | .createFailed e => ⟨tasks, false, ⟨false, some e⟩⟩
    | .exnThrown e => ⟨tasks, false, ⟨false, some e⟩⟩
    | .created key jid =>
      match updateFirst (fun t => t.id == taskId) (markSent key jid now) tasks with
      | none => ⟨tasks, false, ⟨false, some "Task not found"⟩⟩
      | some ts => ⟨ts, true, ⟨true, none⟩⟩

/-- Result of the backend-proxy sendToJira (index.js lines 101-191): the
returned result object and whether the `/mark-sent` POST (the only thing
that flips the backend-stored status) was reached. -/
structure BackendSendOut where
  res : OpResult
  markSentCalled : Bool
deriving DecidableEq

/-- sendToJira (backend variant, index.js lines 101-191): `taskFetch` models
the GET of the task from the backend (`none` when not ok or thrown); any
issue-creation failure returns `{success:false}` before the mark-sent POST. -/
def sendToJiraBackend (taskFetch : Option Task) (outcome : JiraOutcome) : BackendSendOut :=
  match taskFetch with
  | none => ⟨⟨false, some "Task not found"⟩, false⟩
  | some _ =>
    match outcome with
    | .createFailed e => ⟨⟨false, some e⟩, false⟩
    | .exnThrown e => ⟨⟨false, some e⟩, false⟩
    | .created key _ => ⟨⟨true, some key⟩, true⟩

/-- HTTP response as seen by the resolver code: `ok` plus numeric status
(fetch sets `ok` exactly when the status is in the 2xx range). -/
structure HttpResponse where
  ok : Bool
  status : Nat
deriving DecidableEq

/-- Outcome of a fetch call: a response, or a thrown network error. -/
inductive FetchOutcome
  | resp (r : HttpResponse)
  | thrown (msg : String)
deriving DecidableEq

/-- deleteTask (backend variant, index.js lines 230-244): DELETE the task;
`success: response.ok || response.status === 404`; thrown errors yield
`{success:false}`. -/
def deleteTaskBackend (outcome : FetchOutcome) : OpResult :=
  match outcome with
  | .resp r => ⟨r.ok || r.status == 404, none⟩
  | .thrown m => ⟨false, some m⟩

/-- deleteFromBackend (index.js lines 683-697): identical contract to the
backend-variant deleteTask, used by the storage-variant surface. -/
def deleteFromBackend (outcome : FetchOutcome) : OpResult :=
  match outcome with
  | .resp r => ⟨r.ok || r.status == 404, none⟩
  | .thrown m => ⟨false, some m⟩

/-- Per-status action sets rendered by the dashboard App component
(background.js source dump, task-actions block lines 417-445):
pending shows Decline and Send to Jira; sent shows only the open-issue
button; declined shows Delete and Restore. -/
inductive UIAction
  | decline
  | sendToJira
  | openIssue
  | deleteTask
  | restore
deriving DecidableEq

/-- Actions rendered for each task status in the dashboard. -/
def availableActions : Status → List UIAction
  | Status.pending => [UIAction.decline, UIAction.sendToJira]
  | Status.sent => [UIAction.openIssue]
  | Status.declined => [UIAction.deleteTask, UIAction.restore]

/-- Status transitions allowed by the spec's invariant: stay put,
pending to sent, pending to declined, or declined back to pending. -/
def allowedTransition (a b : Status) : Bool :=
  a == b
    || (a == Status.pending && (b == Status.sent || b == Status.declined))
    || (a == Status.declined && b == Status.pending)

/-- One resolver invocation against the storage-variant task list. -/
inductive Op
  | send (taskId now : String) (outcome : JiraOutcome)
  | decline (taskId now : String)
  | restore (taskId : String)
  | remove (taskId : String)

/-- Task-list effect of one resolver invocation. -/
def applyOp (tasks : List Task) : Op → List Task
  | .send taskId now outcome => (sendToJira tasks taskId now outcome).tasks
  | .decline taskId now => (declineTask tasks taskId now).tasks
  | .restore taskId => (restoreTask tasks taskId).tasks
  | .remove taskId => (deleteTaskStorage tasks taskId).tasks

/-- An invocation respects the dashboard's action sets when the action it
performs is rendered for the status of every task carrying the targeted id
(removal is always allowed: the spec permits any status to be deleted). -/
def respectsActionSets (tasks : List Task) : Op → Prop
  | .send taskId _ _ =>
      ∀ t ∈ tasks, t.id = taskId → UIAction.sendToJira ∈ availableActions t.status
  | .decline taskId _ =>
      ∀ t ∈ tasks, t.id = taskId → UIAction.decline ∈ availableActions t.status
  | .restore taskId =>
      ∀ t ∈ tasks, t.id = taskId → UIAction.restore ∈ availableActions t.status
  | .remove _ => True

/-- A task-list step from `tasks` to `ts` only moves statuses along the
spec's transition graph: every post-state task descends from a pre-state
task with the same id by an allowed transition (tasks that merely vanished
are the permitted removals). -/
def stepAllowed (tasks ts : List Task) : Prop :=
  ∀ t2 ∈ ts, ∃ t ∈ tasks, t.id = t2.id ∧ allowedTransition t.status t2.status = true

/-- JavaScript truthiness filter for optional strings: `undefined`, `null`
and the empty string are falsy. -/
def jsTruthy : Option String → Option String
  | none => none
  | some s => if s.isEmpty then none else some s

/-- Embedding of the JavaScript `a || b` default pattern on strings. -/
def jsOr (a : Option String) (b : String) : String :=
  (jsTruthy a).getD b

/-- Backend task object as consumed by syncFromBackend (index.js lines
637-650); `deadline` stands for `metadata?.deadline`. -/
structure BTask where
  id : String
  title : Option String
  text : Option String
  description : Option String
  source : Option String
  url : Option String
  priority : Option String
  deadline : Option String
  createdAt : Option String
deriving DecidableEq

/-- Locally-normalized shape given to a backend task when syncFromBackend
inserts it (index.js lines 639-650); `now` models `new Date().toISOString()`. -/
def normalizeBackendTask (now : String) (bt : BTask) : Task :=
  { id := bt.id,
    title :=
      match jsTruthy bt.title with
      | some t => t
      | none => jsOr (bt.text.map (fun s => s.take 80)) "Untitled",
    description := jsOr bt.description (jsOr bt.text ""),
    source := jsOr bt.source "web",
    url := jsOr bt.url "",
    priority := jsOr bt.priority "medium",
    deadline := jsTruthy bt.deadline,
    status := Status.pending,
    createdAt := jsOr bt.createdAt now,
    createdVia := "donotmiss-flask",
    jiraKey := none, jiraId := none, jiraStatus := none,
    jiraStatusCategory := none, sentAt := none, declinedAt := none }

/-- Loop body of syncFromBackend (index.js lines 637-653): skip backend
tasks whose id is in the id set computed from the pre-sync list, otherwise
unshift the normalized record and count it. -/
def syncStep (now : String) (existingIds : List String)
    (acc : List Task × Nat) (bt : BTask) : List Task × Nat :=
  if existingIds.contains bt.id then acc
  else (normalizeBackendTask now bt :: acc.1, acc.2 + 1)

/-- syncFromBackend (storage variant, index.js lines 620-662), merge step:
given the pre-sync local list and the backend response, returns the list
written to storage and the `added` count. The id set is computed once from
the pre-sync list. -/
def syncFromBackend (existing : List Task) (backend : List BTask) (now : String) :
    List Task × Nat :=
  backend.foldl (syncStep now (existing.map Task.id)) (existing, 0)

/-- Records inserted by a sync: backend tasks whose id is not in `ids`,
normalized. -/
def syncNewTasks (now : String) (ids : List String) (backend : List BTask) : List Task :=
  (backend.filter (fun bt => !(ids.contains bt.id))).map (normalizeBackendTask now)

/-- Fragment lists of detectSource (background.js lines 61-84), in the order
the code checks them. -/
def emailFragments : List (List Char) :=
  ["mail.google.com".toList, "outlook.".toList, "/mail".toList]

/-- Chat-service fragments checked second. -/
def chatFragments : List (List Char) :=
  ["slack.com".toList, "teams.microsoft.com".toList, "discord.com".toList]

/-- Jira fragments checked third. -/
def jiraFragments : List (List Char) :=
  ["atlassian.net".toList, "jira".toList]

/-- All fragments detectSource recognizes. -/
def recognizedFragments : List (List Char) :=
  emailFragments ++ chatFragments ++ jiraFragments

/-- Whether `frag` matches at the start of the second list. -/
def fragLeads : List Char → List Char → Bool
  | [], _ => true
  | _ :: _, [] => false
  | c :: cs, d :: ds => c == d && fragLeads cs ds

/-- Substring test used by detectSource (JavaScript String.includes):
`frag` occurs contiguously somewhere in the text. -/
def containsFragment (frag : List Char) : List Char → Bool
  | [] => fragLeads frag []
  | c :: rest => fragLeads frag (c :: rest) || containsFragment frag rest

/-- detectSource (background.js lines 61-84): absent or empty URL is falsy
and yields "web"; otherwise lowercase the URL and test the fragment groups
in order, first match winning; default "web". -/
def detectSource : Option (List Char) → String
  | none => "web"
  | some url =>
    if url.isEmpty then "web"
    else if emailFragments.any (fun f => containsFragment f (url.map Char.toLower)) then "email"
    else if chatFragments.any (fun f => containsFragment f (url.map Char.toLower)) then "chat"
    else if jiraFragments.any (fun f => containsFragment f (url.map Char.toLower)) then "jira"
    else "web"

/-- Whitespace predicate modelling JavaScript String.prototype.trim (space,
tab, line feed, carriage return, vertical tab, form feed, no-break space,
BOM; the remaining Unicode space separators are irrelevant to this code). -/
def isJsWhitespace (c : Char) : Bool :=
  c == ' ' || c == '\t' || c == '\n' || c == '\r'
    || c.toNat == 11 || c.toNat == 12 || c.toNat == 160 || c.toNat == 65279

/-- JavaScript trim on a character list: drop whitespace from both ends. -/
def jsTrim (l : List Char) : List Char :=
  ((l.dropWhile isJsWhitespace).reverse.dropWhile isJsWhitespace).reverse

/-- Ellipsis marker appended by the auto-title heuristic. -/
def ellipsis : List Char := ['.', '.', '.']

/-- Auto-generated title of the popup confirmation flow (handleTaskAction,
popup script lines 179-182): text longer than 50 characters becomes the
trimmed 50-character prefix plus "...", else the trimmed text. -/
def autoTitle (text : List Char) : List Char :=
  if 50 < text.length then jsTrim (text.take 50) ++ ellipsis
  else jsTrim text

/-- State touched by wakeUpBackend's probe handlers (popup script lines
28-72): whether the setInterval timer is still registered, whether the
standby ("waking") screen is displayed instead of the main content, whether
the promise is already resolved, how many resolution values were actually
delivered (a JavaScript promise ignores resolve calls after the first), and
the attempt counter shown in the standby screen. -/
structure WakeState where
  timerActive : Bool
  uiStandby : Bool
  promiseResolved : Bool
  resolutionsDelivered : Nat
  attempt : Nat
deriving DecidableEq

/-- Completion events of wakeUpBackend's probes. Both the immediate probe
and interval-tick probes run the same success handler; an in-flight probe
may complete after the timer was cleared, so no event is guarded by
`timerActive`. -/
inductive WakeEvent
  | immediateSuccess
  | immediateFailure
  | intervalSuccess
  | intervalFailure
deriving DecidableEq

/-- Whether a probe completion reported the backend awake. -/
def WakeEvent.succeeded : WakeEvent → Bool
  | .immediateSuccess => true
  | .intervalSuccess => true
  | .immediateFailure => false
  | .intervalFailure => false

/-- Success handler shared by both probes (popup script lines 52-57 and
63-68): clearInterval, hide the wakeup screen, show main content, resolve.
Resolution is delivered only if the promise was not already resolved. -/
def wakeSuccessStep (s : WakeState) : WakeState :=
  { timerActive := false, uiStandby := false, promiseResolved := true,
    resolutionsDelivered :=
      if s.promiseResolved then s.resolutionsDelivered else s.resolutionsDelivered + 1,
    attempt := s.attempt }

/-- Effect of one probe completion on the wake-up state. An interval tick
increments the attempt counter before probing, so both interval events
bump it; a failed probe changes nothing else. -/
def wakeStep (s : WakeState) : WakeEvent → WakeState
  | .immediateSuccess => wakeSuccessStep s
  | .intervalSuccess => wakeSuccessStep { s with attempt := s.attempt + 1 }
  | .immediateFailure => s
  | .intervalFailure => { s with attempt := s.attempt + 1 }

/-- State right after wakeUpBackend enters the polling phase: standby UI
shown, timer registered, promise unresolved. -/
def wakeInit : WakeState := ⟨true, true, false, 0, 0⟩

/-- Run wakeUpBackend's handlers over a sequence of probe completions. -/
def wakeRun (evs : List WakeEvent) : WakeState :=
  evs.foldl wakeStep wakeInit

/-- Invariant of the wake-up state machine: once resolved, exactly one
resolution was delivered and the standby UI and timer are off; before
resolution, nothing was delivered. -/
def wakeInv (s : WakeState) : Prop :=
  (s.promiseResolved = true →
    s.resolutionsDelivered = 1 ∧ s.uiStandby = false ∧ s.timerActive = false)
  ∧ (s.promiseResolved = false → s.resolutionsDelivered = 0)

/-- Sample pending task used to evaluate the lifecycle operations. -/
def pendingTask : Task :=
  ⟨"task-1", "T", "D", "web", "http://x", "medium", none, Status.pending,
    "2024-01-01", "donotmiss", none, none, none, none, none, none⟩

/-- Sample declined task used to evaluate the lifecycle operations. -/
def declinedTask : Task :=
  ⟨"task-1", "T", "D", "web", "http://x", "medium", none, Status.declined,
    "2024-01-01", "donotmiss", none, none, none, none, none, some "2024-01-02"⟩

/-- Backend task used to exercise syncFromBackend on a duplicated response. -/
def bDup : BTask :=
  ⟨"task-9", some "Title", none, some "Desc", some "web", some "http://y",
    some "medium", none, some "2024-01-03"⟩

/-- Description of length 65 whose 50-character prefix ends in a space. -/
def cexText : List Char :=
  List.replicate 49 'a' ++ ' ' :: List.replicate 15 'b'

/-- updateFirst finds nothing when no element matches, mirroring
`findIndex` returning -1. -/
theorem updateFirst_none (p : Task → Bool) (f : Task → Task) :
    ∀ tasks : List Task, (∀ t ∈ tasks, p t = false) → updateFirst p f tasks = none := by
  intro tasks
  induction tasks with
  | nil => intro _; rfl
  | cons t ts ih =>
    intro h
    have h0 : p t = false := h t (List.mem_cons_self t ts)
    have h1 : updateFirst p f ts = none :=
      ih (fun x hx => h x (List.mem_cons_of_mem _ hx))
    simp [updateFirst, h0, h1]

/-- Every element of an updateFirst result is either an untouched original
element or the image under `f` of a matching original element. -/
theorem updateFirst_mem (p : Task → Bool) (f : Task → Task) :
    ∀ (tasks ts : List Task), updateFirst p f tasks = some ts →
      ∀ t2 ∈ ts, t2 ∈ tasks ∨ ∃ t, t ∈ tasks ∧ p t = true ∧ t2 = f t := by
  intro tasks
  induction tasks with
  | nil => intro ts h; simp [updateFirst] at h
  | cons t rest ih =>
    intro ts h t2 ht2
    by_cases hp : p t = true
    · simp [updateFirst, hp] at h
      subst h
      rcases List.mem_cons.mp ht2 with h2 | h2
      · exact Or.inr ⟨t, List.mem_cons_self t rest, hp, h2⟩
      · exact Or.inl (List.mem_cons_of_mem _ h2)
    · have hp0 : p t = false := by simpa using hp
      simp [updateFirst, hp0] at h
      rcases h with ⟨ts0, h0, h1⟩
      subst h1
      rcases List.mem_cons.mp ht2 with h2 | h2
      · exact Or.inl (h2 ▸ List.mem_cons_self t rest)
      · rcases ih ts0 h0 t2 h2 with h3 | ⟨t3, h3, h4, h5⟩
        · exact Or.inl (List.mem_cons_of_mem _ h3)
        · exact Or.inr ⟨t3, List.mem_cons_of_mem _ h3, h4, h5⟩

/-- The transition relation is reflexive: leaving a task alone is allowed. -/
theorem allowedTransition_refl (a : Status) : allowedTransition a a = true := by
  cases a <;> rfl

/-- The identity step respects the transition graph. -/
theorem stepAllowed_self (tasks : List Task) : stepAllowed tasks tasks :=
  fun t2 h2 => ⟨t2, h2, rfl, allowedTransition_refl _⟩

/-- An updateFirst step respects the transition graph whenever the update
function preserves ids and moves matching tasks along allowed edges. -/
theorem stepAllowed_updateFirst (tasks ts : List Task) (p : Task → Bool) (f : Task → Task)
    (hm : updateFirst p f tasks = some ts)
    (hf : ∀ t ∈ tasks, p t = true →
      (f t).id = t.id ∧ allowedTransition t.status (f t).status = true) :
    stepAllowed tasks ts := by
  intro t2 ht2
  rcases updateFirst_mem p f tasks ts hm t2 ht2 with h | ⟨t, htm, hp, h2⟩
  · exact ⟨t2, h, rfl, allowedTransition_refl _⟩
  · obtain ⟨hid, hall⟩ := hf t htm hp
    subst h2
    exact ⟨t, htm, hid.symm, hall⟩

/-- Only pending tasks render the Send to Jira action. -/
theorem send_action_pending {s : Status}
    (h : UIAction.sendToJira ∈ availableActions s) : s = Status.pending := by
  cases s <;> simp_all [availableActions]

/-- Only pending tasks render the Decline action. -/
theorem decline_action_pending {s : Status}
    (h : UIAction.decline ∈ availableActions s) : s = Status.pending := by
  cases s <;> simp_all [availableActions]

/-- Only declined tasks render the Restore action. -/
theorem restore_action_declined {s : Status}
    (h : UIAction.restore ∈ availableActions s) : s = Status.declined := by
  cases s <;> simp_all [availableActions]

/-- C2: when the issue-creation request fails (non-2xx response or thrown
error), both sendToJira variants return success = false; the storage variant
leaves the stored task list untouched and never reaches storage.set, and the
backend variant never reaches the mark-sent POST, so the stored status of
the task (pending) is unchanged. -/
theorem C2_send_failure_leaves_pending (tasks : List Task) (taskId now : String)
    (tf : Option Task) (outcome : JiraOutcome) (hfail : outcome.isFailure = true) :
    (sendToJira tasks taskId now outcome).tasks = tasks ∧
    (sendToJira tasks taskId now outcome).wrote = false ∧
    (sendToJira tasks taskId now outcome).res.success = false ∧
    (sendToJiraBackend tf outcome).res.success = false ∧
    (sendToJiraBackend tf outcome).markSentCalled = false := by
  cases outcome with
  | created key jid => simp [JiraOutcome.isFailure] at hfail
  | createFailed e =>
    cases tf <;> by_cases hall : tasks.all (fun t => t.id != taskId) <;>
      simp [sendToJira, sendToJiraBackend, hall]
  | exnThrown e =>
    cases tf <;> by_cases hall : tasks.all (fun t => t.id != taskId) <;>
      simp [sendToJira, sendToJiraBackend, hall]

/-- C2 witness: a concrete failed issue creation against a stored pending
task changes nothing and reports failure. -/
theorem C2_send_failure_witness :
    (sendToJira [pendingTask] "task-1" "2024" (JiraOutcome.createFailed "boom")).tasks
      = [pendingTask] ∧
    (sendToJira [pendingTask] "task-1" "2024" (JiraOutcome.createFailed "boom")).wrote = false ∧
    (sendToJira [pendingTask] "task-1" "2024"
      (JiraOutcome.createFailed "boom")).res.success = false ∧
    (sendToJiraBackend (some pendingTask) (JiraOutcome.createFailed "boom")).res.success
      = false ∧
    (sendToJiraBackend (some pendingTask)
      (JiraOutcome.createFailed "boom")).markSentCalled = false :=
  C2_send_failure_leaves_pending [pendingTask] "task-1" "2024" (some pendingTask)
    (JiraOutcome.createFailed "boom") (by decide)

/-- C6: a DELETE answered with HTTP 404 is folded into success by both the
backend-variant deleteTask and deleteFromBackend, so deleting a
non-existent id returns success = true. -/
theorem C6_delete_404_is_success (r : HttpResponse) (h : r.status = 404) :
    (deleteTaskBackend (FetchOutcome.resp r)).success = true ∧
    (deleteFromBackend (FetchOutcome.resp r)).success = true := by
  simp [deleteTaskBackend, deleteFromBackend, h]

/-- C6 witness: the literal 404 response (ok = false) yields success. -/
theorem C6_delete_404_witness :
    (deleteTaskBackend (FetchOutcome.resp ⟨false, 404⟩)).success = true ∧
    (deleteFromBackend (FetchOutcome.resp ⟨false, 404⟩)).success = true :=
  C6_delete_404_is_success ⟨false, 404⟩ (by decide)

/-- C9: when no stored task carries the requested id, declineTask and
restoreTask both return success = false with error "Task not found", do not
write storage, and return the task list unchanged. -/
theorem C9_not_found_no_write (tasks : List Task) (taskId now : String)
    (h : ∀ t ∈ tasks, t.id ≠ taskId) :
    declineTask tasks taskId now = ⟨tasks, false, ⟨false, some "Task not found"⟩⟩ ∧
    restoreTask tasks taskId = ⟨tasks, false, ⟨false, some "Task not found"⟩⟩ := by
  have hnone : ∀ f : Task → Task,
      updateFirst (fun t => t.id == taskId) f tasks = none := fun f =>
    updateFirst_none _ f tasks (fun t ht => by simpa using h t ht)
  constructor <;> simp [declineTask, restoreTask, hnone]

/-- C9 witness: declining or restoring an absent id on a concrete list is a
no-op error. -/
theorem C9_not_found_witness :
    declineTask [pendingTask] "task-404" "2024"
      = ⟨[pendingTask], false, ⟨false, some "Task not found"⟩⟩ ∧
    restoreTask [pendingTask] "task-404"
      = ⟨[pendingTask], false, ⟨false, some "Task not found"⟩⟩ :=
  C9_not_found_no_write [pendingTask] "task-404" "2024" (by decide)

/-- C10: the storage-variant deleteTask always reports success, keeps
exactly the tasks whose id differs from the requested one, and preserves
their relative order (the result is a sublist of the input). -/
theorem C10_delete_storage_total (tasks : List Task) (taskId : String) :
    (deleteTaskStorage tasks taskId).res.success = true ∧
    (∀ t, t ∈ (deleteTaskStorage tasks taskId).tasks ↔ t ∈ tasks ∧ t.id ≠ taskId) ∧
    List.Sublist (deleteTaskStorage tasks taskId).tasks tasks := by
  refine ⟨rfl, ?_, ?_⟩
  · intro t
    simp [deleteTaskStorage, List.mem_filter, bne_iff_ne]
  · exact List.filter_sublist tasks

/-- C10 witness: deleting an id absent from a concrete list succeeds and
keeps the list intact. -/
theorem C10_delete_storage_witness :
    (deleteTaskStorage [pendingTask] "task-404").res.success = true ∧
    (∀ t, t ∈ (deleteTaskStorage [pendingTask] "task-404").tasks ↔
      t ∈ [pendingTask] ∧ t.id ≠ "task-404") ∧
    List.Sublist (deleteTaskStorage [pendingTask] "task-404").tasks [pendingTask] :=
  C10_delete_storage_total [pendingTask] "task-404"

/-- dropWhile is the identity when no element satisfies the predicate. -/
theorem dropWhile_eq_self_of_none (p : Char → Bool) (l : List Char)
    (h : ∀ c ∈ l, p c = false) : l.dropWhile p = l := by
  cases l with
  | nil => rfl
  | cons c cs => simp [List.dropWhile_cons, h c (List.mem_cons_self c cs)]

/-- jsTrim is the identity on lists with no whitespace characters. -/
theorem jsTrim_eq_self (l : List Char) (h : ∀ c ∈ l, isJsWhitespace c = false) :
    jsTrim l = l := by
  unfold jsTrim
  rw [dropWhile_eq_self_of_none _ _ h,
    dropWhile_eq_self_of_none _ _ (fun c hc => h c (List.mem_reverse.mp hc)),
    List.reverse_reverse]

/-- C3 (amended): the auto-generated title is the JavaScript-trimmed
50-character prefix of the description plus "..." when the description
exceeds 50 characters, and the trimmed description verbatim otherwise; when
that prefix carries no whitespace the title is exactly the first 50
characters plus the ellipsis, 53 characters in all. -/
theorem C3_autoTitle_truncation (text : List Char) :
    (text.length ≤ 50 → autoTitle text = jsTrim text) ∧
    (50 < text.length → autoTitle text = jsTrim (text.take 50) ++ ellipsis) ∧
    (50 < text.length → (∀ c ∈ text.take 50, isJsWhitespace c = false) →
      autoTitle text = text.take 50 ++ ellipsis ∧ (autoTitle text).length = 53) := by
  refine ⟨?_, ?_, ?_⟩
  · intro h
    simp [autoTitle, Nat.not_lt.mpr h]
  · intro h
    simp [autoTitle, h]
  · intro h hws
    have htrim := jsTrim_eq_self _ hws
    have htake : (text.take 50).length = 50 := by
      rw [List.length_take]
      omega
    refine ⟨by simp [autoTitle, h, htrim], ?_⟩
    simp [autoTitle, h, htrim, List.length_append, htake, ellipsis]

/-- C3 witness: a 65-character description of non-whitespace characters
yields exactly the first 50 characters plus the ellipsis, length 53. -/
theorem C3_autoTitle_witness :
    autoTitle (List.replicate 65 'b') = (List.replicate 65 'b').take 50 ++ ellipsis ∧
    (autoTitle (List.replicate 65 'b')).length = 53 :=
  (C3_autoTitle_truncation (List.replicate 65 'b')).2.2 (by decide) (by decide)

/-- C3 counterexample: a description of length 65 whose 50-character prefix
ends in a space produces a title of 49 characters plus the ellipsis (52 in
all), not the first 50 characters plus the ellipsis as the claim states. -/
theorem C3_autoTitle_cex :
    cexText.length = 65 ∧
    autoTitle cexText ≠ cexText.take 50 ++ ellipsis ∧
    (autoTitle cexText).length = 52 := by
  decide

/-- C7: detectSource returns "email" for every URL whose lowercased form
contains an email-service fragment (the email group is checked first, so
this holds even when chat or jira fragments are also present), and returns
"web" for every URL containing none of the recognized fragments as well as
for an absent URL. -/
theorem C7_detectSource_classification :
    (∀ url : List Char,
      emailFragments.any (fun f => containsFragment f (url.map Char.toLower)) = true →
      detectSource (some url) = "email") ∧
    (∀ url : List Char,
      recognizedFragments.any (fun f => containsFragment f (url.map Char.toLower)) = false →
      detectSource (some url) = "web") ∧
    detectSource none = "web" := by
  refine ⟨?_, ?_, rfl⟩
  · intro url h
    cases url with
    | nil => exact absurd h (by decide)
    | cons c rest =>
      simp only [detectSource, List.isEmpty_cons, h]
      simp
  · intro url h
    have h3 : emailFragments.any
          (fun f => containsFragment f (url.map Char.toLower)) = false ∧
        chatFragments.any (fun f => containsFragment f (url.map Char.toLower)) = false ∧
        jiraFragments.any (fun f => containsFragment f (url.map Char.toLower)) = false := by
      simpa [recognizedFragments, List.any_append, Bool.or_eq_false_iff] using h
    cases url with
    | nil => rfl
    | cons c rest =>
      simp only [detectSource, List.isEmpty_cons, h3.1, h3.2.1, h3.2.2]
      simp

/-- C7 witness: a Gmail URL (which also contains the jira-group fragment
check order candidates) classifies as email; an unrecognized URL and the
absent URL classify as web. -/
theorem C7_detectSource_witness :
    detectSource (some "https://MAIL.google.com/u/0".toList) = "email" ∧
    detectSource (some "https://example.org/page".toList) = "web" ∧
    detectSource none = "web" :=
  ⟨(C7_detectSource_classification).1 "https://MAIL.google.com/u/0".toList (by decide),
   (C7_detectSource_classification).2.1 "https://example.org/page".toList (by decide),
   (C7_detectSource_classification).2.2⟩

/-- Characterization of the syncFromBackend loop: it prepends the reversed
list of normalized non-duplicate backend tasks and counts them. -/
theorem sync_foldl_eq (now : String) (ids : List String) :
    ∀ (backend : List BTask) (acc : List Task) (n : Nat),
      backend.foldl (syncStep now ids) (acc, n)
        = ((syncNewTasks now ids backend).reverse ++ acc,
           n + (backend.filter (fun bt => !(ids.contains bt.id))).length) := by
  intro backend
  induction backend with
  | nil =>
    intro acc n
    simp [syncNewTasks]
  | cons bt rest ih =>
    intro acc n
    by_cases hmem : bt.id ∈ ids
    · have hstep : syncStep now ids (acc, n) bt = (acc, n) := by
        simp [syncStep, hmem]
      rw [List.foldl_cons, hstep, ih]
      simp [syncNewTasks, List.filter_cons, hmem]
    · have hstep : syncStep now ids (acc, n) bt
          = (normalizeBackendTask now bt :: acc, n + 1) := by
        simp [syncStep, hmem]
      rw [List.foldl_cons, hstep, ih]
      refine Prod.ext ?_ ?_
      · simp [syncNewTasks, List.filter_cons, hmem, List.reverse_cons, List.append_assoc]
      · simp [List.filter_cons, hmem]
        omega

/-- C4 counterexample: a backend response that lists the same id twice makes
syncFromBackend insert both copies, because the id set is computed once
before the loop; the second insertion happens although its id is already in
the local list by then, and the resulting list carries a duplicate id. -/
theorem C4_sync_duplicate_cex :
    ((syncFromBackend [] [bDup, bDup] "now").1.map Task.id) = ["task-9", "task-9"] ∧
    ¬ ((syncFromBackend [] [bDup, bDup] "now").1.map Task.id).Nodup ∧
    (syncFromBackend [] [bDup, bDup] "now").2 = 2 := by
  decide

/-- C4 (amended): provided the backend response lists pairwise-distinct ids,
syncFromBackend inserts no task whose id already exists in the local list
(the merged list has pairwise-distinct ids whenever the local list did, so
the de-duplication also holds across repeated syncs of the same contents),
and the returned count equals the number of newly added records (the
backend tasks whose id was not present locally, which is exactly how much
the list grew). -/
theorem C4_sync_dedup (existing : List Task) (backend : List BTask) (now : String)
    (hb : (backend.map BTask.id).Nodup) (he : (existing.map Task.id).Nodup) :
    ((syncFromBackend existing backend now).1.map Task.id).Nodup ∧
    (syncFromBackend existing backend now).2
      = (backend.filter
          (fun bt => !((existing.map Task.id).contains bt.id))).length ∧
    (syncFromBackend existing backend now).1.length
      = existing.length + (syncFromBackend existing backend now).2 := by
  have hchar := sync_foldl_eq now (existing.map Task.id) backend existing 0
  have hids : (syncNewTasks now (existing.map Task.id) backend).map Task.id
      = (backend.filter
          (fun bt => !((existing.map Task.id).contains bt.id))).map BTask.id := by
    simp only [syncNewTasks, List.map_map]
    rfl
  unfold syncFromBackend
  rw [hchar]
  refine ⟨?_, by simp, ?_⟩
  · simp only [List.map_append, List.map_reverse, hids]
    refine List.Nodup.append ?_ he ?_
    · rw [List.nodup_reverse]
      exact hb.sublist (List.Sublist.map _ (List.filter_sublist backend))
    · intro x hx1 hx2
      rw [List.mem_reverse] at hx1
      rcases List.mem_map.mp hx1 with ⟨bt, hbt, rfl⟩
      have hkeep := (List.mem_filter.mp hbt).2
      simp at hkeep
      rcases List.mem_map.mp hx2 with ⟨a, ha, haid⟩
      exact hkeep a ha haid
  · simp only [List.length_append, List.length_reverse, syncNewTasks, List.length_map]
    omega

/-- C4 witness: a duplicate-free backend response merged into a concrete
local list keeps ids distinct and counts the single insertion. -/
theorem C4_sync_dedup_witness :
    ((syncFromBackend [pendingTask] [bDup] "now").1.map Task.id).Nodup ∧
    (syncFromBackend [pendingTask] [bDup] "now").2
      = ([bDup].filter
          (fun bt => !(([pendingTask].map Task.id).contains bt.id))).length ∧
    (syncFromBackend [pendingTask] [bDup] "now").1.length
      = [pendingTask].length + (syncFromBackend [pendingTask] [bDup] "now").2 :=
  C4_sync_dedup [pendingTask] [bDup] "now" (by decide) (by decide)

/-- C8: syncFromBackend only prepends: the stored result is the block of
newly inserted records followed by the original local list verbatim (every
existing task unmodified, in its original relative order), and every
inserted record has status pending. -/
theorem C8_sync_frame (existing : List Task) (backend : List BTask) (now : String) :
    (syncFromBackend existing backend now).1
      = (syncNewTasks now (existing.map Task.id) backend).reverse ++ existing ∧
    ∀ t ∈ (syncNewTasks now (existing.map Task.id) backend).reverse,
      t.status = Status.pending := by
  constructor
  · have hchar := sync_foldl_eq now (existing.map Task.id) backend existing 0
    unfold syncFromBackend
    rw [hchar]
  · intro t ht
    rw [List.mem_reverse] at ht
    simp only [syncNewTasks] at ht
    rcases List.mem_map.mp ht with ⟨bt, _, h2⟩
    rw [← h2]
    rfl

/-- C8 witness: a concrete sync prepends the normalized backend record to
the untouched local list, and the inserted record is pending. -/
theorem C8_sync_frame_witness :
    (syncFromBackend [pendingTask] [bDup] "now").1
      = (syncNewTasks "now" ([pendingTask].map Task.id) [bDup]).reverse
          ++ [pendingTask] ∧
    ∀ t ∈ (syncNewTasks "now" ([pendingTask].map Task.id) [bDup]).reverse,
      t.status = Status.pending :=
  C8_sync_frame [pendingTask] [bDup] "now"

/-- C1 counterexample: the storage-variant sendToJira never checks the
current status, so invoking it on a declined task with a successful issue
creation moves the task directly from declined to sent — a transition
outside the claimed graph. -/
theorem C1_declined_to_sent_cex :
    declinedTask.status = Status.declined ∧
    (sendToJira [declinedTask] "task-1" "2024-01-05"
      (JiraOutcome.created "KEY-1" "100")).tasks.map Task.status = [Status.sent] ∧
    allowedTransition Status.declined Status.sent = false := by
  decide

/-- C1 (amended): declined-to-sent is never exposed as an available action
(the declined state's action set is delete and restore only), and any
resolver invocation that respects the per-status action sets — sendToJira
and declineTask reached only for pending tasks, restoreTask only for
declined ones, deletion always — changes statuses only along
pending to sent, pending to declined, declined to pending, or removal; the
raw resolver invoked directly on a declined task can, however, move it
straight to sent (see the counterexample). -/
theorem C1_transitions_respect_action_sets (tasks : List Task) (o : Op)
    (h : respectsActionSets tasks o) :
    UIAction.sendToJira ∉ availableActions Status.declined ∧
    stepAllowed tasks (applyOp tasks o) := by
  refine ⟨by decide, ?_⟩
  cases o with
  | send taskId now outcome =>
    show stepAllowed tasks (sendToJira tasks taskId now outcome).tasks
    by_cases hall : tasks.all (fun t => t.id != taskId)
    · simp only [sendToJira, hall, if_true]
      exact stepAllowed_self tasks
    · cases outcome with
      | createFailed e =>
        simp only [sendToJira, hall, if_false, Bool.false_eq_true]
        exact stepAllowed_self tasks
      | exnThrown e =>
        simp only [sendToJira, hall, if_false, Bool.false_eq_true]
        exact stepAllowed_self tasks
      | created key jid =>
        rcases hm : updateFirst (fun t => t.id == taskId) (markSent key jid now) tasks with
          _ | ts
        · simp only [sendToJira, hall, hm, if_false, Bool.false_eq_true]
          exact stepAllowed_self tasks
        · have hts : (sendToJira tasks taskId now (JiraOutcome.created key jid)).tasks
              = ts := by
            simp [sendToJira, hall, hm]
          rw [hts]
          refine stepAllowed_updateFirst tasks ts _ _ hm ?_
          intro t htm hp
          have hid : t.id = taskId := by simpa using hp
          have hs : t.status = Status.pending :=
            send_action_pending (h t htm hid)
          exact ⟨rfl, by simp [markSent, hs, allowedTransition]⟩
  | decline taskId now =>
    show stepAllowed tasks (declineTask tasks taskId now).tasks
    rcases hm : updateFirst (fun t => t.id == taskId)
        (fun t => { t with status := Status.declined, declinedAt := some now }) tasks with
      _ | ts
    · simp only [declineTask, hm]
      exact stepAllowed_self tasks
    · have hts : (declineTask tasks taskId now).tasks = ts := by
        simp [declineTask, hm]
      rw [hts]
      refine stepAllowed_updateFirst tasks ts _ _ hm ?_
      intro t htm hp
      have hid : t.id = taskId := by simpa using hp
      have hs : t.status = Status.pending :=
        decline_action_pending (h t htm hid)
      exact ⟨rfl, by simp [hs, allowedTransition]⟩
  | restore taskId =>
    show stepAllowed tasks (restoreTask tasks taskId).tasks
    rcases hm : updateFirst (fun t => t.id == taskId)
        (fun t => { t with status := Status.pending, declinedAt := none }) tasks with
      _ | ts
    · simp only [restoreTask, hm]
      exact stepAllowed_self tasks
    · have hts : (restoreTask tasks taskId).tasks = ts := by
        simp [restoreTask, hm]
      rw [hts]
      refine stepAllowed_updateFirst tasks ts _ _ hm ?_
      intro t htm hp
      have hid : t.id = taskId := by simpa using hp
      have hs : t.status = Status.declined :=
        restore_action_declined (h t htm hid)
      exact ⟨rfl, by simp [hs, allowedTransition]⟩
  | remove taskId =>
    show stepAllowed tasks (deleteTaskStorage tasks taskId).tasks
    intro t2 ht2
    have h2 := (List.mem_filter.mp ht2).1
    exact ⟨t2, h2, rfl, allowedTransition_refl _⟩

/-- C1 witness: declining a concrete pending task respects the action sets
and every surviving status change is along an allowed edge. -/
theorem C1_transitions_witness :
    UIAction.sendToJira ∉ availableActions Status.declined ∧
    stepAllowed [pendingTask] (applyOp [pendingTask] (Op.decline "task-1" "2024")) :=
  C1_transitions_respect_action_sets [pendingTask] (Op.decline "task-1" "2024")
    (by
      intro t ht _
      rw [List.mem_singleton.mp ht]
      decide)

/-- One probe completion preserves the wake-up invariant. -/
theorem wakeStep_inv (s : WakeState) (e : WakeEvent) (h : wakeInv s) :
    wakeInv (wakeStep s e) := by
  rcases h with ⟨h1, h2⟩
  cases e <;> rcases hr : s.promiseResolved <;>
    simp_all [wakeStep, wakeSuccessStep, wakeInv]

/-- Any run of probe completions preserves the wake-up invariant. -/
theorem wakeFold_inv : ∀ (evs : List WakeEvent) (s : WakeState),
    wakeInv s → wakeInv (evs.foldl wakeStep s) := by
  intro evs
  induction evs with
  | nil => intro s h; exact h
  | cons e rest ih =>
    intro s h
    exact ih (wakeStep s e) (wakeStep_inv s e h)

/-- Resolution is monotone: once resolved, every later state is resolved. -/
theorem wakeStep_resolved_mono (s : WakeState) (e : WakeEvent)
    (h : s.promiseResolved = true) : (wakeStep s e).promiseResolved = true := by
  cases e <;> simp [wakeStep, wakeSuccessStep, h]

/-- Resolution stays true across any run of probe completions. -/
theorem wakeFold_resolved_mono : ∀ (evs : List WakeEvent) (s : WakeState),
    s.promiseResolved = true → (evs.foldl wakeStep s).promiseResolved = true := by
  intro evs
  induction evs with
  | nil => intro s h; exact h
  | cons e rest ih =>
    intro s h
    exact ih (wakeStep s e) (wakeStep_resolved_mono s e h)

/-- A successful probe completion resolves the promise. -/
theorem wakeStep_resolved_of_success (s : WakeState) (e : WakeEvent)
    (h : e.succeeded = true) : (wakeStep s e).promiseResolved = true := by
  cases e <;> simp_all [wakeStep, wakeSuccessStep, WakeEvent.succeeded]

/-- After a run containing at least one successful probe, the promise is
resolved. -/
theorem wakeFold_resolved_of_mem : ∀ (evs : List WakeEvent) (s : WakeState),
    (∃ e ∈ evs, e.succeeded = true) → (evs.foldl wakeStep s).promiseResolved = true := by
  intro evs
  induction evs with
  | nil =>
    intro s h
    rcases h with ⟨e, he, _⟩
    exact absurd he (List.not_mem_nil e)
  | cons e0 rest ih =>
    intro s h
    rcases h with ⟨e, he, hs⟩
    rcases List.mem_cons.mp he with h1 | h1
    · subst h1
      exact wakeFold_resolved_mono rest _ (wakeStep_resolved_of_success s e hs)
    · exact ih (wakeStep s e0) ⟨e, h1, hs⟩

/-- C5: over every sequence of probe completions — including the race where
the immediate probe and an interval probe both later report success — the
wakeUp promise is resolved at most once; as soon as any probe succeeds the
run ends with exactly one delivered resolution, the standby ("waking") UI
dismissed, and the periodic timer cleared. -/
theorem C5_wakeUp_resolves_once (evs : List WakeEvent) :
    (wakeRun evs).resolutionsDelivered ≤ 1 ∧
    ((∃ e ∈ evs, e.succeeded = true) →
      (wakeRun evs).resolutionsDelivered = 1 ∧
      (wakeRun evs).uiStandby = false ∧
      (wakeRun evs).timerActive = false) := by
  have hinv : wakeInv (wakeRun evs) :=
    wakeFold_inv evs wakeInit (by constructor <;> intro h <;> simp_all [wakeInit])
  constructor
  · rcases hr : (wakeRun evs).promiseResolved with _ | _
    · rw [hinv.2 hr]
      omega
    · rw [(hinv.1 hr).1]
  · intro hex
    have hres : (wakeRun evs).promiseResolved = true :=
      wakeFold_resolved_of_mem evs wakeInit hex
    exact hinv.1 hres

/-- C5 witness: the immediate probe and an interval probe both reporting
success delivers exactly one resolution and leaves standby UI and timer
off. -/
theorem C5_wakeUp_witness :
    (wakeRun [WakeEvent.immediateSuccess, WakeEvent.intervalSuccess]).resolutionsDelivered
      = 1 ∧
    (wakeRun [WakeEvent.immediateSuccess, WakeEvent.intervalSuccess]).uiStandby = false ∧
    (wakeRun [WakeEvent.immediateSuccess, WakeEvent.intervalSuccess]).timerActive = false :=
  (C5_wakeUp_resolves_once [WakeEvent.immediateSuccess, WakeEvent.intervalSuccess]).2
    ⟨WakeEvent.immediateSuccess, by decide, by decide⟩

end DoNotMiss
